import Mathlib

/-!
Verification of the MyTestProj repository: a MIMIC-IV mortality-prediction
orchestration script (`PyHealthTest/mimic4_mortality_prediction.py`) and a
mathematics demonstration script (`main.py`).

The orchestration script delegates dataset loading, code mapping and
patient-level splitting to the external pyhealth library; those operations
are modelled here from the specification's contract (its §4.1, §6 and §8),
while the statistics arithmetic, the exception handlers, the unguarded
split-percentage divisions and the guarded vocabulary inspection are
embedded directly from the script's own code.
-/

namespace MyTestProj

/-- A sample of the task-applied collection: per the spec's data model, each
element has a patient identifier, a binary mortality label and feature fields
(conditions, procedures, drugs) represented as code sequences. -/
structure Sample where
  patient_id : String
  label : Nat
  conditions : List String
  procedures : List String
  drugs : List String
deriving DecidableEq

/-- The patient identifiers of a collection, distinct, in order of first
appearance. -/
def patientsOf (ds : List Sample) : List String :=
  (ds.map (fun s => s.patient_id)).eraseDups

/-- Modelled from the spec: the deterministic pseudo-random permutation of the
patient list that the external splitter derives from the seed.  The library
implementation (pyhealth) is not part of this repository; the spec only
requires that the shuffle be a deterministic function of the seed and of the
input ordering, so it is modelled as a rotation of the patient list by the
seed. -/
def shufflePatients (seed : Nat) (patients : List String) : List String :=
  patients.rotate seed

/-- Index of the first ratio cut: the number of patients assigned to the
first partition, the floor of (first ratio) * (number of patients). -/
def cutOne (ratios : List ℚ) (n : Nat) : Nat :=
  ((ratios.headD 0) * n).floor.toNat

/-- Index of the second ratio cut: patients before it go to the first or
second partition, the floor of (first ratio + second ratio) * (number of
patients). -/
def cutTwo (ratios : List ℚ) (n : Nat) : Nat :=
  ((ratios.headD 0 + (ratios.drop 1).headD 0) * n).floor.toNat

/-- Modelled from the spec: which of the three partitions (0 = train,
1 = validation, 2 = test) a given patient identifier is assigned to.
Membership is computed per-patient: the shuffled patient list is cut at the
two cumulative-ratio cut points and a patient falls in the partition of its
segment. -/
def assignPid (ds : List Sample) (ratios : List ℚ) (seed : Nat)
    (pid : String) : Nat :=
  let perm := shufflePatients seed (patientsOf ds)
  let i := perm.indexOf pid
  if i < cutOne ratios perm.length then 0
  else if i < cutTwo ratios perm.length then 1
  else 2

/-- Modelled from the spec: the external splitting call `split_by_patient`
(pyhealth), absent from this repository.  Per the spec it takes the sample
collection, a list of three ratios summing to 1.0 and a deterministic seed,
and returns three disjoint partitions such that membership is computed
per-patient (all samples for one patient land in the same partition) and the
split is reproducible for a fixed seed and fixed input ordering. -/
def split_by_patient (ds : List Sample) (ratios : List ℚ) (seed : Nat) :
    List Sample × List Sample × List Sample :=
  (ds.filter (fun s => assignPid ds ratios seed s.patient_id == 0),
   ds.filter (fun s => assignPid ds ratios seed s.patient_id == 1),
   ds.filter (fun s => assignPid ds ratios seed s.patient_id == 2))

/-- The three partitions of a split, indexed 0 = train, 1 = validation,
2 and above = test. -/
def partOf (ds : List Sample) (ratios : List ℚ) (seed : Nat) (i : Nat) :
    List Sample :=
  let t := split_by_patient ds ratios seed
  if i = 0 then t.1 else if i = 1 then t.2.1 else t.2.2

theorem assignPid_le_two (ds : List Sample) (ratios : List ℚ) (seed : Nat)
    (pid : String) : assignPid ds ratios seed pid ≤ 2 := by
  unfold assignPid
  simp only []
  split
  · omega
  · split <;> omega

theorem filter_three_length {α : Type} (f : α → Nat) (hle : ∀ a, f a ≤ 2)
    (l : List α) :
    (l.filter (fun a => f a == 0)).length
      + (l.filter (fun a => f a == 1)).length
      + (l.filter (fun a => f a == 2)).length = l.length := by
  induction l with
  | nil => simp
  | cons a t ih =>
    have h := hle a
    simp only [List.filter_cons]
    interval_cases h : f a <;> simp [h] <;> omega

theorem mem_filter_assign {ds : List Sample} {ratios : List ℚ} {seed i : Nat}
    {s : Sample}
    (h : s ∈ ds.filter (fun s => assignPid ds ratios seed s.patient_id == i)) :
    assignPid ds ratios seed s.patient_id = i := by
  have h2 := (List.mem_filter.mp h).2
  simpa using h2

theorem mem_partOf {ds : List Sample} {ratios : List ℚ} {seed i : Nat}
    {s : Sample} (hi : i ≤ 2) :
    s ∈ partOf ds ratios seed i ↔
      s ∈ ds ∧ assignPid ds ratios seed s.patient_id = i := by
  unfold partOf split_by_patient
  interval_cases i <;> simp [List.mem_filter]

/-- The ratios used by the orchestration script at its split step:
`ratios=[0.8, 0.1, 0.1]`. -/
def mainSplitRatios : List ℚ := [8/10, 1/10, 1/10]

/-- C1: for every sample collection and every patient identifier appearing in
it, all samples carrying that patient identifier are placed by
`split_by_patient` with ratios [0.8, 0.1, 0.1] and seed 42 into exactly one
of the three returned partitions; no patient crosses a partition boundary. -/
theorem patient_samples_in_exactly_one_partition (ds : List Sample)
    (pid : String) (hpid : pid ∈ ds.map (fun s => s.patient_id)) :
    ∃! i : Nat, i < 3 ∧
      (∀ s ∈ ds, s.patient_id = pid → s ∈ partOf ds mainSplitRatios 42 i) ∧
      (∃ s ∈ partOf ds mainSplitRatios 42 i, s.patient_id = pid) := by
  obtain ⟨s₀, hs₀, hp₀⟩ := List.mem_map.mp hpid
  refine ⟨assignPid ds mainSplitRatios 42 pid, ⟨?_, ?_, ?_⟩, ?_⟩
  · have := assignPid_le_two ds mainSplitRatios 42 pid
    omega
  · intro s hs hsp
    exact (mem_partOf (assignPid_le_two ds mainSplitRatios 42 pid)).mpr
      ⟨hs, by rw [hsp]⟩
  · exact ⟨s₀, (mem_partOf (assignPid_le_two ds mainSplitRatios 42 pid)).mpr
      ⟨hs₀, by rw [hp₀]⟩, hp₀⟩
  · rintro j ⟨hj3, _hall, s₁, hs₁, hp₁⟩
    have hmem := (mem_partOf (by omega : j ≤ 2)).mp hs₁
    rw [hp₁] at hmem
    exact hmem.2.symm

/-- A small concrete sample collection used to instantiate the split
theorems. -/
def dsEx : List Sample :=
  [⟨"p1", 0, ["c1"], ["pr1"], ["d1"]⟩,
   ⟨"p2", 1, ["c2"], ["pr2"], ["d2"]⟩,
   ⟨"p1", 1, ["c3"], ["pr3"], ["d3"]⟩]

theorem patient_samples_in_exactly_one_partition_witness :
    ("p1" ∈ dsEx.map (fun s => s.patient_id)) ∧
    (∃! i : Nat, i < 3 ∧
      (∀ s ∈ dsEx, s.patient_id = "p1" → s ∈ partOf dsEx mainSplitRatios 42 i) ∧
      (∃ s ∈ partOf dsEx mainSplitRatios 42 i, s.patient_id = "p1")) :=
  ⟨by decide, patient_samples_in_exactly_one_partition dsEx "p1" (by decide)⟩

/-- C2: for every ratio triple summing to 1.0 and every sample collection,
the three partitions returned by `split_by_patient` are pairwise disjoint and
the sum of their sizes equals the size of the input collection. -/
theorem split_partitions_disjoint_and_sizes_sum (ds : List Sample)
    (r0 r1 r2 : ℚ) (seed : Nat) (_hsum : r0 + r1 + r2 = 1) :
    ((split_by_patient ds [r0, r1, r2] seed).1.length
      + (split_by_patient ds [r0, r1, r2] seed).2.1.length
      + (split_by_patient ds [r0, r1, r2] seed).2.2.length = ds.length)
    ∧ (∀ s : Sample, ¬(s ∈ (split_by_patient ds [r0, r1, r2] seed).1
        ∧ s ∈ (split_by_patient ds [r0, r1, r2] seed).2.1))
    ∧ (∀ s : Sample, ¬(s ∈ (split_by_patient ds [r0, r1, r2] seed).1
        ∧ s ∈ (split_by_patient ds [r0, r1, r2] seed).2.2))
    ∧ (∀ s : Sample, ¬(s ∈ (split_by_patient ds [r0, r1, r2] seed).2.1
        ∧ s ∈ (split_by_patient ds [r0, r1, r2] seed).2.2)) := by
  refine ⟨?_, ?_, ?_, ?_⟩
  · exact filter_three_length (fun s => assignPid ds [r0, r1, r2] seed s.patient_id)
      (fun s => assignPid_le_two ds [r0, r1, r2] seed s.patient_id) ds
  · rintro s ⟨h0, h1⟩
    have e0 := mem_filter_assign h0
    have e1 := mem_filter_assign h1
    omega
  · rintro s ⟨h0, h2⟩
    have e0 := mem_filter_assign h0
    have e2 := mem_filter_assign h2
    omega
  · rintro s ⟨h1, h2⟩
    have e1 := mem_filter_assign h1
    have e2 := mem_filter_assign h2
    omega

theorem split_partitions_disjoint_and_sizes_sum_witness :
    ((8:ℚ)/10 + 1/10 + 1/10 = 1) ∧
    (((split_by_patient dsEx [8/10, 1/10, 1/10] 42).1.length
      + (split_by_patient dsEx [8/10, 1/10, 1/10] 42).2.1.length
      + (split_by_patient dsEx [8/10, 1/10, 1/10] 42).2.2.length = dsEx.length)
    ∧ (∀ s : Sample, ¬(s ∈ (split_by_patient dsEx [8/10, 1/10, 1/10] 42).1
        ∧ s ∈ (split_by_patient dsEx [8/10, 1/10, 1/10] 42).2.1))
    ∧ (∀ s : Sample, ¬(s ∈ (split_by_patient dsEx [8/10, 1/10, 1/10] 42).1
        ∧ s ∈ (split_by_patient dsEx [8/10, 1/10, 1/10] 42).2.2))
    ∧ (∀ s : Sample, ¬(s ∈ (split_by_patient dsEx [8/10, 1/10, 1/10] 42).2.1
        ∧ s ∈ (split_by_patient dsEx [8/10, 1/10, 1/10] 42).2.2))) :=
  ⟨by norm_num,
   split_partitions_disjoint_and_sizes_sum dsEx (8/10) (1/10) (1/10) 42 (by norm_num)⟩

/-- C3: two calls of `split_by_patient` with the same seed, the same ratios
and the same input collection (same ordering) return identical train,
validation and test partitions: the split is deterministic. -/
theorem split_by_patient_deterministic (ds₁ ds₂ : List Sample)
    (ratios₁ ratios₂ : List ℚ) (seed₁ seed₂ : Nat)
    (hds : ds₁ = ds₂) (hr : ratios₁ = ratios₂) (hs : seed₁ = seed₂) :
    split_by_patient ds₁ ratios₁ seed₁ = split_by_patient ds₂ ratios₂ seed₂ := by
  rw [hds, hr, hs]

theorem split_by_patient_deterministic_witness :
    dsEx = dsEx ∧ mainSplitRatios = mainSplitRatios ∧ 42 = 42 ∧
    split_by_patient dsEx mainSplitRatios 42
      = split_by_patient dsEx mainSplitRatios 42 :=
  ⟨rfl, rfl, rfl,
   split_by_patient_deterministic dsEx dsEx mainSplitRatios mainSplitRatios
     42 42 rfl rfl rfl⟩

/-- The feature fields of a sample that carry medical codes. -/
inductive CodeField where
  | conditions
  | procedures
  | drugs
deriving DecidableEq

/-- Apply a code translation to one feature field of a sample, leaving the
other fields untouched. -/
def mapField (f : String → String) (fld : CodeField) (s : Sample) : Sample :=
  match fld with
  | CodeField.conditions => { s with conditions := s.conditions.map f }
  | CodeField.procedures => { s with procedures := s.procedures.map f }
  | CodeField.drugs => { s with drugs := s.drugs.map f }

/-- Modelled from the spec: the feature fields a source coding system lives
in.  NDC is a drug coding system, so an NDC-sourced mapping touches the drugs
field; ICD9CM is a diagnosis/procedure coding system, so an ICD9CM-sourced
mapping touches the conditions and procedures fields. -/
def sourceFields (source : String) : List CodeField :=
  if source = "NDC" then [CodeField.drugs]
  else if source = "ICD9CM" then [CodeField.conditions, CodeField.procedures]
  else []

/-- Modelled from the spec: the external code-mapping call
`stat_code_mapping` (pyhealth), absent from this repository.  Per the spec it
takes a sample collection, a source coding system name, a target coding
system name and an optional granularity level, and returns a new sample
collection with the feature codes of the source system translated.  The
code-level translation table itself is external, so it is abstracted as the
function argument `tr` from (source, target, level, code) to the translated
code. -/
def stat_code_mapping (tr : String → String → Option Nat → String → String)
    (ds : List Sample) (source target : String) (level : Option Nat) :
    List Sample :=
  ds.map (fun s =>
    (sourceFields source).foldl
      (fun acc fld => mapField (tr source target level) fld acc) s)

/-- The fixed order of the orchestration script at its Step 3: first map NDC
drug codes to ATC level 3, then map ICD9CM codes to ICD10CM. -/
def mainCodeMapping (tr : String → String → Option Nat → String → String)
    (ds : List Sample) : List Sample :=
  stat_code_mapping tr
    (stat_code_mapping tr ds "NDC" "ATC" (some 3))
    "ICD9CM" "ICD10CM" none

/-- C5: the orchestration applies the two code-mapping calls in fixed order,
NDC to ATC level 3 first and then ICD9CM to ICD10CM, and the two mappings do
not depend on each other's output: applying them in the opposite order to
the same sample collection yields the same final sample collection, for
every code translation. -/
theorem code_mappings_commute (tr : String → String → Option Nat → String → String)
    (ds : List Sample) :
    mainCodeMapping tr ds
      = stat_code_mapping tr
          (stat_code_mapping tr ds "ICD9CM" "ICD10CM" none)
          "NDC" "ATC" (some 3) := by
  unfold mainCodeMapping stat_code_mapping
  simp only [List.map_map]
  apply List.map_congr_left
  intro s _hs
  cases s
  rfl

/-- The list comprehension `labels = [sample['label'] for sample in task_ds]`
of the script's Step 6. -/
def labelsOf (ds : List Sample) : List Nat :=
  ds.map (fun s => s.label)

/-- `mortality_count = sum(labels)` of the script's Step 6. -/
def mortality_count (ds : List Sample) : Nat :=
  (labelsOf ds).sum

/-- `mortality_rate = mortality_count / len(labels) * 100` of the script's
Step 6, with Python's true division embedded as rational division. -/
def mortality_rate (ds : List Sample) : ℚ :=
  (mortality_count ds : ℚ) / (labelsOf ds).length * 100

/-- `len(labels) - mortality_count`, the survived count printed by the
script's Step 6. -/
def survived_count (ds : List Sample) : ℤ :=
  ((labelsOf ds).length : ℤ) - (mortality_count ds : ℤ)

theorem sum_binary_eq_count (l : List Nat) (h : ∀ x ∈ l, x = 0 ∨ x = 1) :
    l.sum = l.countP (fun x => x == 1) := by
  induction l with
  | nil => simp
  | cons a t ih =>
    have ha := h a (List.mem_cons_self a t)
    have ht := ih (fun x hx => h x (List.mem_cons_of_mem a hx))
    rcases ha with ha | ha
    · subst ha
      simp [List.countP_cons, ht]
    · subst ha
      simp [List.countP_cons, ht]
      omega

/-- C4: for every non-empty sample collection with binary labels, the
mortality rate printed by the report step equals (count of samples whose
label equals 1) / (total sample count) × 100, and the printed survived count
equals the total sample count minus the mortality count. -/
theorem mortality_rate_correct (ds : List Sample) (_hne : ds ≠ [])
    (hbin : ∀ s ∈ ds, s.label = 0 ∨ s.label = 1) :
    mortality_rate ds
        = ((ds.countP (fun s => s.label == 1) : ℚ) / (ds.length : ℚ)) * 100
      ∧ survived_count ds = (ds.length : ℤ) - (mortality_count ds : ℤ) := by
  constructor
  · have hsum : (labelsOf ds).sum = ds.countP (fun s => s.label == 1) := by
      have h := sum_binary_eq_count (labelsOf ds) (by
        intro x hx
        obtain ⟨s, hs, rfl⟩ := List.mem_map.mp hx
        exact hbin s hs)
      rw [h]
      unfold labelsOf
      rw [List.countP_map]
      rfl
    unfold mortality_rate mortality_count
    rw [hsum]
    unfold labelsOf
    rw [List.length_map]
  · unfold survived_count labelsOf
    rw [List.length_map]

theorem mortality_rate_correct_witness :
    (dsEx ≠ [] ∧ ∀ s ∈ dsEx, s.label = 0 ∨ s.label = 1) ∧
    (mortality_rate dsEx
        = ((dsEx.countP (fun s => s.label == 1) : ℚ) / (dsEx.length : ℚ)) * 100
      ∧ survived_count dsEx = (dsEx.length : ℤ) - (mortality_count dsEx : ℤ)) :=
  ⟨⟨by decide, by decide⟩,
   mortality_rate_correct dsEx (by decide) (by decide)⟩

/-- Python exceptions relevant to the script: `FileNotFoundError` and
`ImportError` are the two classes with dedicated handlers; every other
exception class is carried with its class name and message. -/
inductive PyExc where
  | fileNotFoundError (msg : String)
  | importError (msg : String)
  | otherError (name msg : String)
deriving DecidableEq

/-- The `ZeroDivisionError` Python raises on division by zero. -/
def zeroDivisionError : PyExc :=
  PyExc.otherError "ZeroDivisionError" "division by zero"

/-- Python true division of two non-negative integers: raises
`ZeroDivisionError` when the denominator is zero, otherwise yields the exact
quotient. -/
def pyDiv (a b : Nat) : Except PyExc ℚ :=
  if b = 0 then Except.error zeroDivisionError
  else Except.ok ((a : ℚ) / (b : ℚ))

/-- The per-feature entry of the `input_info` mapping: per the spec it
describes that feature's vocabulary. -/
structure FeatureInfo where
  vocab : List String
deriving DecidableEq

/-- Python dictionary subscription `d[k]`: raises `KeyError` when the key is
absent. -/
def dictGet (d : List (String × FeatureInfo)) (k : String) :
    Except PyExc FeatureInfo :=
  match d.lookup k with
  | some v => Except.ok v
  | none => Except.error (PyExc.otherError "KeyError" k)

/-- One feature block of the script's Step 5: when the collection lacks an
`input_info` attribute (modelled by `none`) or `input_info` lacks the key,
print an N/A line; otherwise subscript `input_info` and print the vocabulary
size.  The subscription itself is the fallible `dictGet`, exactly as in the
source where `task_ds.input_info[key]` is evaluated only under the
membership test. -/
def inspectFeature (info : Option (List (String × FeatureInfo)))
    (key lbl : String) : Except PyExc String :=
  match info with
  | none => Except.ok (lbl ++ ": N/A (not in input_info)")
  | some d =>
    if (d.lookup key).isSome then do
      let fi ← dictGet d key
      Except.ok (lbl ++ ": " ++ toString fi.vocab.length ++ " unique codes")
    else Except.ok (lbl ++ ": N/A (not in input_info)")

/-- The script's Step 5: the three feature blocks in source order. -/
def vocabInspection (info : Option (List (String × FeatureInfo))) :
    Except PyExc (List String) := do
  let c ← inspectFeature info "conditions" "Conditions (Diagnoses)"
  let p ← inspectFeature info "procedures" "Procedures"
  let d ← inspectFeature info "drugs" "Drugs (Prescriptions)"
  Except.ok [c, p, d]

/-- The script's Steps 4 to 6 after the code mappings: split with ratios
[0.8, 0.1, 0.1] and seed 42, print the split sizes and percentages (the
three divisions by the collection size are unguarded, as at source lines
130-132), inspect the vocabularies, then print the final statistics, whose
label-distribution block alone is guarded by the size being positive (source
line 188), and end with the success banner. -/
def reportSteps (task_ds : List Sample)
    (info : Option (List (String × FeatureInfo))) :
    Except PyExc (List String) := do
  let parts := split_by_patient task_ds mainSplitRatios 42
  let trainPct ← pyDiv parts.1.length task_ds.length
  let valPct ← pyDiv parts.2.1.length task_ds.length
  let testPct ← pyDiv parts.2.2.length task_ds.length
  let step4 :=
    ["✓ Data split completed",
     "Training set size: " ++ toString parts.1.length ++ " samples ("
       ++ toString (trainPct * 100) ++ ")",
     "Validation set size: " ++ toString parts.2.1.length ++ " samples ("
       ++ toString (valPct * 100) ++ ")",
     "Test set size: " ++ toString parts.2.2.length ++ " samples ("
       ++ toString (testPct * 100) ++ ")"]
  let step5 ← vocabInspection info
  let step6 :=
    ["Total samples: " ++ toString task_ds.length] ++
    (if task_ds.length > 0 then
      ["Mortality cases: " ++ toString (mortality_count task_ds),
       "Survived cases: " ++ toString (survived_count task_ds)]
    else [])
  Except.ok (step4 ++ step5 ++ step6 ++ ["Pipeline Completed Successfully!"])

/-- The dataset handle of the loader: per the spec it exposes a patient
collection and the loaded table names. -/
structure Dataset where
  patients : List String
  tables : List String

/-- The body of `main()`: load, apply the task, run the two code mappings in
their fixed order, then split and report.  The loader and the task function
belong to the external library, so they enter as arguments; an error result
of any step short-circuits the rest, as an uncaught Python exception
does. -/
def mainPipeline (load : Except PyExc Dataset)
    (setTask : Dataset → Except PyExc (List Sample))
    (tr : String → String → Option Nat → String → String)
    (info : Option (List (String × FeatureInfo))) :
    Except PyExc (List String) := do
  let d ← load
  let ts ← setTask d
  reportSteps (mainCodeMapping tr ts) info

/-- What a run of the script prints after the try block, and which
exception, if any, it re-raises past the top level. -/
structure RunResult where
  printed : List String
  reraised : Option PyExc
deriving DecidableEq

/-- The `__main__` block of the script: on success print the success
messages; on `FileNotFoundError` or `ImportError` print the dedicated
diagnostics and swallow the exception; on any other exception print the
generic diagnostic and re-raise it (`raise` at source line 263). -/
def topLevelHandler (r : Except PyExc (List String)) : RunResult :=
  match r with
  | Except.ok lines =>
      ⟨lines ++ ["✓ Script executed successfully!",
        "Datasets are ready for model training and evaluation."], none⟩
  | Except.error (PyExc.fileNotFoundError m) =>
      ⟨["✗ Error: MIMIC-IV data not found!", m,
        "Please update the root parameter in MIMIC4Dataset to point",
        "to your MIMIC-IV data directory."], none⟩
  | Except.error (PyExc.importError m) =>
      ⟨["✗ Error: Required library not installed!", m,
        "Please install pyhealth:"], none⟩
  | Except.error (PyExc.otherError n m) =>
      ⟨["✗ Unexpected error occurred: " ++ n, m],
       some (PyExc.otherError n m)⟩

/-- C6: when the data-loading step raises a not-found error, the top-level
handler prints the data-not-found diagnostic and the exception does not
propagate past the top-level handler, whatever the other pipeline steps
would have done. -/
theorem fileNotFound_swallowed (m : String)
    (setTask : Dataset → Except PyExc (List Sample))
    (tr : String → String → Option Nat → String → String)
    (info : Option (List (String × FeatureInfo))) :
    "✗ Error: MIMIC-IV data not found!" ∈
        (topLevelHandler (mainPipeline
          (Except.error (PyExc.fileNotFoundError m)) setTask tr info)).printed
      ∧ (topLevelHandler (mainPipeline
          (Except.error (PyExc.fileNotFoundError m)) setTask tr info)).reraised
          = none := by
  constructor
  · exact List.mem_cons_self _ _
  · rfl

/-- C7: an exception that is neither a not-found error nor a
dependency-missing error makes the top-level handler print a diagnostic and
re-raise the same exception, while the two recognized categories are not
re-raised. -/
theorem unrecognized_exception_reraised (n m : String) :
    (topLevelHandler (Except.error (PyExc.otherError n m))).reraised
        = some (PyExc.otherError n m)
      ∧ ("✗ Unexpected error occurred: " ++ n) ∈
          (topLevelHandler (Except.error (PyExc.otherError n m))).printed
      ∧ (∀ m2 : String,
          (topLevelHandler (Except.error (PyExc.fileNotFoundError m2))).reraised
            = none)
      ∧ (∀ m2 : String,
          (topLevelHandler (Except.error (PyExc.importError m2))).reraised
            = none) :=
  ⟨rfl, List.mem_cons_self _ _, fun _ => rfl, fun _ => rfl⟩

/-- C9: on an empty sample collection the reporting raises
`ZeroDivisionError` at the Step 4 percentage divisions, so the run never
reaches the success banner. -/
theorem empty_collection_zero_division (task_ds : List Sample)
    (info : Option (List (String × FeatureInfo))) (h : task_ds = []) :
    reportSteps task_ds info = Except.error zeroDivisionError
      ∧ ∀ lines, reportSteps task_ds info ≠ Except.ok lines := by
  subst h
  have h1 : reportSteps [] info = Except.error zeroDivisionError := rfl
  exact ⟨h1, fun lines hc => by rw [h1] at hc; exact Except.noConfusion hc⟩

theorem empty_collection_zero_division_witness :
    (([] : List Sample) = [])
      ∧ (reportSteps [] none = Except.error zeroDivisionError
        ∧ ∀ lines, reportSteps ([] : List Sample) none ≠ Except.ok lines) :=
  ⟨rfl, empty_collection_zero_division [] none rfl⟩

/-- What each feature block of Step 5 prints, as the spec describes it: an
N/A line when the feature is missing from `input_info` (or `input_info` is
absent), the vocabulary size otherwise. -/
def specFeatureLine (info : Option (List (String × FeatureInfo)))
    (key lbl : String) : String :=
  match info with
  | none => lbl ++ ": N/A (not in input_info)"
  | some d =>
    match d.lookup key with
    | none => lbl ++ ": N/A (not in input_info)"
    | some fi => lbl ++ ": " ++ toString fi.vocab.length ++ " unique codes"

theorem inspectFeature_ok (info : Option (List (String × FeatureInfo)))
    (key lbl : String) :
    inspectFeature info key lbl = Except.ok (specFeatureLine info key lbl) := by
  unfold inspectFeature specFeatureLine dictGet
  cases info with
  | none => rfl
  | some d =>
    cases h : d.lookup key with
    | none => simp [h]
    | some fi =>
      simp only [h]
      rfl

/-- C10: the vocabulary-inspection step never raises: for every state of
`input_info` it returns the three lines, each an N/A line when the feature
is missing and the vocabulary size otherwise. -/
theorem vocab_inspection_never_raises
    (info : Option (List (String × FeatureInfo))) :
    vocabInspection info = Except.ok
      [specFeatureLine info "conditions" "Conditions (Diagnoses)",
       specFeatureLine info "procedures" "Procedures",
       specFeatureLine info "drugs" "Drugs (Prescriptions)"] := by
  unfold vocabInspection
  rw [inspectFeature_ok, inspectFeature_ok, inspectFeature_ok]
  rfl

/-- `math.radians(45)` of the arithmetic script: degrees to radians. -/
noncomputable def angle_rad : ℝ := Real.pi / 180 * 45

/-- `math.sin(angle_rad)` of the arithmetic script, the value printed with
four-decimal rounding. -/
noncomputable def sinValue : ℝ := Real.sin angle_rad

/-- `math.factorial(5)` of the arithmetic script. -/
def factorialValue : Nat := Nat.factorial 5

/-- `math.gcd(48, 18)` of the arithmetic script. -/
def gcdValue : Nat := Nat.gcd 48 18

/-- C8: in the arithmetic script's fixed run, the sin of 45 degrees rounded
to four decimals is 0.7071 (that is, rounding the value times 10^4 gives
7071), the factorial of 5 is 120 and the greatest common divisor of 48 and
18 is 6. -/
theorem arithmetic_script_values :
    round (sinValue * 10000) = 7071
      ∧ factorialValue = 120 ∧ gcdValue = 6 := by
  refine ⟨?_, by decide, by decide⟩
  have hx : sinValue * 10000 = 5000 * Real.sqrt 2 := by
    unfold sinValue angle_rad
    rw [show (Real.pi / 180 * 45 : ℝ) = Real.pi / 4 by ring,
      Real.sin_pi_div_four]
    ring
  have hsq : Real.sqrt 2 ^ 2 = 2 := Real.sq_sqrt (by norm_num)
  have hpos : (0:ℝ) ≤ Real.sqrt 2 := Real.sqrt_nonneg 2
  have hlow : (1.41421 : ℝ) ≤ Real.sqrt 2 := by nlinarith [hsq, hpos]
  have hhigh : Real.sqrt 2 ≤ (1.41422 : ℝ) := by nlinarith [hsq, hpos]
  rw [hx, round_eq, Int.floor_eq_iff]
  constructor
  · push_cast
    nlinarith [hlow]
  · push_cast
    nlinarith [hhigh]

end MyTestProj
